import Mathlib

/-!
Shallow embedding of the core of the desec-ddns repository: a long-running
agent that keeps a deSEC A record synchronized with the host's public IPv4
address.  The embedding covers, translated from the TypeScript sources:

* `isValidIPv4` — `validator.isIP(ip, 4)` as used in `src/utils/validators.ts`
  (dotted-quad, each octet 0–255, no leading zeros).
* `isValidDomain` — the ASCII fragment of `validator.isFQDN` with its default
  options (the repository only ever passes ASCII domain names).
* `jsParseInt`, `validatePositiveInteger`, `loadConfig` — configuration
  loading from `src/config/config.ts` / `src/utils/validators.ts`; Docker
  secret/env resolution is collapsed into already-resolved optional string
  inputs (out of scope per the spec), and `none` as result of `loadConfig`
  models `process.exit(1)`.
* `providerResult`, `getPublicIP` — `IpProviderService.getPublicIP`
  (`src/services/ip-provider.ts`): per-provider p-retry over fetch attempts,
  IPv4 validation of the extracted value, fall-through to the next provider.
* `updateARecord`, `getCurrentARecordIP` — `DesecApiService`
  (`src/services/desec-api.ts`): rate-gated, retried read/write of the A
  record, with oracles standing for the successive HTTP outcomes and an
  event trace recording admission and HTTP attempts.
* `pLimitSubmit`/`pLimitComplete`/`pLimitRun` — the semantics of the
  `p-limit` concurrency gate that `DesecApiService` instantiates with
  `config.requestsPerMinute`.
* `monitorTick`, `seedState`, `runTicks`, `monitorRun` — the reconciliation
  loop `monitorAndUpdateIP` (monolithic variant in the repository), where a
  tick result of `none` models `process.exit(1)`.
-/

/-! ### Character and digit utilities -/

/-- Test whether the code point of a character lies between two bounds. -/
def charBetween (c : Char) (lo hi : Nat) : Bool :=
  decide (lo ≤ c.toNat) && decide (c.toNat ≤ hi)

/-- ASCII digit 0–9. -/
def isDigitChar (c : Char) : Bool :=
  charBetween c 48 57

/-- ASCII letter a–z or A–Z. -/
def isAsciiAlphaChar (c : Char) : Bool :=
  charBetween c 97 122 || charBetween c 65 90

/-- Numeric value of a string of decimal digits. -/
def digitsToNat (l : List Char) : Nat :=
  l.foldl (fun n c => 10 * n + (c.toNat - 48)) 0

/-- Split a character list at every dot, like JavaScript `str.split('.')`. -/
def splitDots : List Char → List (List Char)
  | [] => [[]]
  | c :: rest =>
    let r := splitDots rest
    if c = '.' then
      [] :: r
    else
      match r with
      | [] => [[c]]
      | g :: gs => (c :: g) :: gs

/-! ### IPv4 validation (`validator.isIP(ip, 4)`) -/

/-- One dotted-quad octet per validator.js: a run of digits with value
0–255 and no leading zero (the segment regex
`25[0-5]|2[0-4][0-9]|1[0-9][0-9]|[1-9][0-9]|[0-9]`). -/
def octetValid (p : List Char) : Bool :=
  decide (1 ≤ p.length) && p.all isDigitChar &&
    (decide (p.length = 1) || !(decide (p.headD '0' = '0'))) &&
    decide (digitsToNat p ≤ 255)

/-- Validate an IPv4 literal, embedding `validator.isIP(ip, 4)` as called by
`isValidIPv4` in `src/utils/validators.ts`: exactly four octets joined by
dots, each octet 0–255 without leading zeros. -/
def isValidIPv4 (s : String) : Bool :=
  let parts := splitDots s.data
  decide (parts.length = 4) && parts.all octetValid

example : isValidIPv4 "1.2.3.4" = true := by decide
example : isValidIPv4 "5.6.7.8" = true := by decide
example : isValidIPv4 "9.9.9.9" = true := by decide
example : isValidIPv4 "999.1.1.1" = false := by decide
example : isValidIPv4 "not-an-ip" = false := by decide
example : isValidIPv4 "0.0.0.0" = true := by decide
example : isValidIPv4 "256.1.1.1" = false := by decide
example : isValidIPv4 "01.2.3.4" = false := by decide
example : isValidIPv4 "1.2.3" = false := by decide
example : isValidIPv4 "1.2.3.4." = false := by decide

/-! ### FQDN validation (`validator.isFQDN`, ASCII fragment) -/

/-- Character allowed in an FQDN label once the underscore check of
validator.js has been applied: ASCII letters, digits, hyphen.  (validator.js
also admits U+00A1–U+FFFF; the repository only uses ASCII domains, so the
embedding is restricted to the ASCII fragment.) -/
def fqdnPartChar (c : Char) : Bool :=
  isAsciiAlphaChar c || isDigitChar c || decide (c = '-')

/-- Character allowed after the `xn` prefix of a punycode TLD
(`xn[a-z0-9-]{2,}`, case-insensitive). -/
def xnChar (c : Char) : Bool :=
  isAsciiAlphaChar c || isDigitChar c || decide (c = '-')

/-- Top-level-domain test of validator.js (default options, ASCII fragment):
at least two letters, or `xn` followed by at least two `[a-z0-9-]` chars. -/
def tldValid (t : List Char) : Bool :=
  (decide (2 ≤ t.length) && t.all isAsciiAlphaChar) ||
    (match t with
     | x :: n :: rest =>
       (decide (x = 'x') || decide (x = 'X')) &&
         (decide (n = 'n') || decide (n = 'N')) &&
         decide (2 ≤ rest.length) && rest.all xnChar
     | _ => false)

/-- One FQDN label: 1–63 characters from `fqdnPartChar`, not starting or
ending with a hyphen. -/
def fqdnPartValid (p : List Char) : Bool :=
  decide (1 ≤ p.length) && decide (p.length ≤ 63) && p.all fqdnPartChar &&
    !(decide (p.headD ' ' = '-')) && !(decide (p.getLastD ' ' = '-'))

/-- Validate a fully qualified domain name, embedding `validator.isFQDN`
with default options (require_tld, no underscores, no trailing dot, no
numeric TLD) on ASCII input, as called by `isValidDomain` in
`src/utils/validators.ts`. -/
def isValidDomain (s : String) : Bool :=
  let parts := splitDots s.data
  let tld := parts.getLastD []
  decide (2 ≤ parts.length) && tldValid tld &&
    !(tld.all isDigitChar && decide (1 ≤ tld.length)) &&
    parts.all fqdnPartValid

example : isValidDomain "example.com" = true := by decide
example : isValidDomain "home.example.com" = true := by decide
example : isValidDomain "example" = false := by decide
example : isValidDomain "exa mple.com" = false := by decide
example : isValidDomain "" = false := by decide

/-! ### Configuration loading (`src/config/config.ts`) -/

/-- JavaScript whitespace skipped by `parseInt`. -/
def jsWhitespace (c : Char) : Bool :=
  decide (c = ' ') || decide (c = '\t') || decide (c = '\n') || decide (c = '\r')

/-- Longest leading run of decimal digits. -/
def leadingDigits : List Char → List Char
  | [] => []
  | c :: rest => if isDigitChar c then c :: leadingDigits rest else []

/-- Embed JavaScript `parseInt(value, 10)`: skip whitespace, optional sign,
longest digit run; `none` models `NaN`. -/
def jsParseInt (s : String) : Option Int :=
  let l := s.data.dropWhile jsWhitespace
  let signAndRest : Int × List Char :=
    match l with
    | '-' :: r => (-1, r)
    | '+' :: r => (1, r)
    | r => (1, r)
  let ds := leadingDigits signAndRest.2
  if ds.isEmpty then none else some (signAndRest.1 * (digitsToNat ds : Int))

example : jsParseInt "300" = some 300 := by decide
example : jsParseInt "abc" = none := by decide
example : jsParseInt "-5" = some (-5) := by decide
example : jsParseInt "0" = some 0 := by decide

/-- Embed `validatePositiveInteger` from `src/utils/validators.ts`: parse the
string with `parseInt(value, 10)`; on `NaN` or a non-positive value, log a
warning and return the default; otherwise return the parsed value.  The
`name` argument is used only in the log message. -/
def validatePositiveInteger (value : String) ( name : String) (defaultValue : Nat) : Nat :=
  match jsParseInt value with
  | none => defaultValue
  | some n => if n ≤ 0 then defaultValue else n.toNat

example : validatePositiveInteger "abc" "INTERVAL_SECONDS" 300 = 300 := by decide
example : validatePositiveInteger "-5" "TTL" 3600 = 3600 := by decide
example : validatePositiveInteger "600" "INTERVAL_SECONDS" 300 = 600 := by decide

/-- Application configuration (`Config` in `src/types/types.ts`). -/
structure Config where
  desecToken : String
  desecDomain : String
  desecRecord : String
  intervalSeconds : Nat
  maxRetries : Nat
  requestsPerMinute : Nat
  ttl : Nat
deriving DecidableEq, Repr

/-- Environment seen by `loadConfig`.  Token and domain are the values
already resolved from Docker secrets or environment variables (the file
reading mechanism is an external collaborator per the spec); the remaining
fields are the raw environment strings, `none` when unset. -/
structure ConfigEnv where
  desecToken : Option String
  desecDomain : Option String
  desecRecord : Option String
  intervalSecondsStr : Option String
  maxRetriesStr : Option String
  requestsPerMinuteStr : Option String
  ttlStr : Option String
deriving DecidableEq, Repr

/-- JavaScript `v || defaultString`: an unset or empty value falls back to
the default. -/
def envOr (v : Option String) (d : String) : String :=
  match v with
  | none => d
  | some s => if s = "" then d else s

/-- JavaScript truthiness of an optional string: an unset or empty value
counts as missing. -/
def envOpt (v : Option String) : Option String :=
  match v with
  | none => none
  | some s => if s = "" then none else some s

/-- Embed `loadConfig` from `src/config/config.ts`.  A result of `none`
models `process.exit(1)`: the code exits when the token or domain is
missing or the domain is not a valid FQDN.  Numeric values go through
`validatePositiveInteger`, which never exits. -/
def loadConfig (env : ConfigEnv) : Option Config :=
  match envOpt env.desecToken with
  | none => none
  | some tok =>
    match envOpt env.desecDomain with
    | none => none
    | some dom =>
      if isValidDomain dom = false then none
      else
        some ⟨tok, dom, envOr env.desecRecord "@",
          validatePositiveInteger (envOr env.intervalSecondsStr "300") "INTERVAL_SECONDS" 300,
          validatePositiveInteger (envOr env.maxRetriesStr "3") "MAX_RETRIES" 3,
          validatePositiveInteger (envOr env.requestsPerMinuteStr "30") "REQUESTS_PER_MINUTE" 30,
          validatePositiveInteger (envOr env.ttlStr "3600") "TTL" 3600⟩

example :
    loadConfig ⟨some "tok", some "example.com", none, none, none, none, none⟩ =
      some ⟨"tok", "example.com", "@", 300, 3, 30, 3600⟩ := by decide
example :
    loadConfig ⟨none, some "example.com", none, none, none, none, none⟩ = none := by decide
example :
    loadConfig ⟨some "tok", some "not a domain", none, none, none, none, none⟩ = none := by decide

/-! ### The p-retry wrapper

A network operation wrapped in `pRetry(fn, { retries: maxRetries })` makes
up to `maxRetries + 1` attempts and stops at the first success.  The
environment is modelled as an oracle list giving the outcome of each
successive attempt; an exhausted oracle stands for attempts that keep
failing. -/

/-- Outcome of one fetch attempt of an IP provider: the extracted string on
HTTP success, or a thrown error (non-2xx, timeout, connection failure). -/
inductive AttemptResult where
  | ok (s : String)
  | err
deriving DecidableEq, Repr

/-- Value returned by `pRetry` with the given total attempt budget over the
oracle of attempt outcomes: the first successful attempt's value, or `none`
when the budget is exhausted without a success (the last failure is
re-thrown). -/
def pRetryFirstOk : Nat → List AttemptResult → Option String
  | 0, _ => none
  | _ + 1, AttemptResult.ok s :: _ => some s
  | n + 1, _ :: rest => pRetryFirstOk n rest
  | _ + 1, [] => none

/-- Number of attempts `pRetry` makes with the given total budget over the
oracle: it stops at the first success, otherwise uses the whole budget. -/
def attemptsUsed : Nat → List AttemptResult → Nat
  | 0, _ => 0
  | _ + 1, AttemptResult.ok _ :: _ => 1
  | n + 1, _ :: rest => 1 + attemptsUsed n rest
  | n + 1, [] => n + 1

/-! ### IP Provider Resolver (`IpProviderService.getPublicIP`) -/

/-- Result of one provider's retrying GET: `pRetry` with
`retries: config.maxRetries`, hence `maxRetries + 1` total attempts. -/
def providerResult (maxRetries : Nat) (attempts : List AttemptResult) : Option String :=
  pRetryFirstOk (maxRetries + 1) attempts

/-- Whether a provider's retrying GET delivers a syntactically valid IPv4
value. -/
def providerYieldsValid (maxRetries : Nat) (attempts : List AttemptResult) : Bool :=
  match providerResult maxRetries attempts with
  | none => false
  | some s => isValidIPv4 s

/-- Embed `IpProviderService.getPublicIP`: iterate the ordered provider
list; for each provider run the retrying GET; on a thrown (exhausted)
provider move on; on a delivered value validate it as IPv4 and return the
first valid one, otherwise log and move on.  `none` models the final
`throw new AppError('Failed to fetch public IP from all providers')`. -/
def getPublicIP (maxRetries : Nat) : List (List AttemptResult) → Option String
  | [] => none
  | a :: rest =>
    match providerResult maxRetries a with
    | none => getPublicIP maxRetries rest
    | some s => if isValidIPv4 s then some s else getPublicIP maxRetries rest

/-- Number of providers the loop in `getPublicIP` actually queries: every
provider up to and including the one that returns the first valid value,
or all of them when none does. -/
def providersTried (maxRetries : Nat) : List (List AttemptResult) → Nat
  | [] => 0
  | a :: rest =>
    match providerResult maxRetries a with
    | none => 1 + providersTried maxRetries rest
    | some s => if isValidIPv4 s then 1 else 1 + providersTried maxRetries rest

example : getPublicIP 3 [[AttemptResult.err], [AttemptResult.ok "1.2.3.4"]] = some "1.2.3.4" := by
  decide
example :
    providersTried 3 [[AttemptResult.err], [AttemptResult.ok "1.2.3.4"], [AttemptResult.ok "7.7.7.7"]] = 2 := by
  decide
example : getPublicIP 3 [[AttemptResult.ok "not-an-ip"], [AttemptResult.ok "1.2.3.4"]] = some "1.2.3.4" := by
  decide
example : getPublicIP 3 [] = none := by decide

/-! ### deSEC API Service (`DesecApiService`) -/

/-- Events of one DNS-provider operation: admission by the `p-limit` gate,
the successive HTTP attempts made by the retry wrapper inside that
admission, and release of the slot when the gated job finishes. -/
inductive DnsEvent where
  | admitted
  | getAttempt (n : Nat)
  | putAttempt (n : Nat)
  | released
deriving DecidableEq, Repr

/-- Outcome of `DesecApiService.updateARecord`. -/
inductive WriteOutcome where
  | validationError
  | updateFailed
  | success
deriving DecidableEq, Repr

/-- Observable result of `DesecApiService.updateARecord`: its outcome, how
many HTTP PUT calls were issued, whether the retry wrapper was entered, and
the event trace of the gated job. -/
structure WriteResult where
  outcome : WriteOutcome
  httpCalls : Nat
  enteredRetry : Bool
  events : List DnsEvent
deriving DecidableEq, Repr

/-- Run the retry wrapper over an oracle of HTTP-attempt successes with the
given total attempt budget, returning the number of calls made and whether
one succeeded.  A missing oracle entry stands for a failing attempt. -/
def retryCalls : Nat → List Bool → Nat × Bool
  | 0, _ => (0, false)
  | n + 1, results =>
    if results.headD false then (1, true)
    else
      let r := retryCalls n results.tail
      (r.1 + 1, r.2)

/-- Embed `DesecApiService.updateARecord` (and the monolithic
`updateDesecARecord`): inside the rate-limiter gate, first validate the IP
— an invalid IP throws `ApiError('Invalid IP format', 400)` before any URL
building, body construction, retry wrapper, or HTTP call — then run the
PUT under `pRetry` with `retries: config.maxRetries`.  `puts` is the oracle
of successive PUT outcomes (`res.ok`). -/
def updateARecord (maxRetries : Nat) (ip : String) (puts : List Bool) : WriteResult :=
  if isValidIPv4 ip = false then
    ⟨WriteOutcome.validationError, 0, false, [DnsEvent.admitted, DnsEvent.released]⟩
  else
    let r := retryCalls (maxRetries + 1) puts
    ⟨if r.2 then WriteOutcome.success else WriteOutcome.updateFailed, r.1, true,
      DnsEvent.admitted :: (List.range r.1).map DnsEvent.putAttempt ++ [DnsEvent.released]⟩

/-- Whether a write succeeded. -/
def writeOk (w : WriteResult) : Bool :=
  match w.outcome with
  | WriteOutcome.success => true
  | _ => false

example :
    updateARecord 3 "999.1.1.1" [true] =
      ⟨WriteOutcome.validationError, 0, false, [DnsEvent.admitted, DnsEvent.released]⟩ := by
  decide
example : writeOk (updateARecord 3 "1.2.3.4" [true]) = true := by decide
example : writeOk (updateARecord 3 "1.2.3.4" [false, false, false, false]) = false := by decide

/-- Observable result of `DesecApiService.getCurrentARecordIP`: the value
it returns (`none` models a throw after retries are exhausted; `some none`
is a missing record or an invalid stored IP, returned as `null`;
`some (some ip)` a validated stored IP), the number of HTTP GET calls, and
the event trace of the gated job. -/
structure ReadResult where
  value : Option (Option String)
  httpCalls : Nat
  events : List DnsEvent
deriving DecidableEq, Repr

/-- Run the read's retry wrapper over an oracle of GET outcomes: `none`
entries are thrown attempts (non-2xx, timeout), `some payload` is an HTTP
success whose `records` payload is `payload` (`none` = empty `records`).
Returns the number of calls made and the first successful payload. -/
def readAttempts : Nat → List (Option (Option String)) → Nat × Option (Option String)
  | 0, _ => (0, none)
  | n + 1, os =>
    match os with
    | some v :: _ => (1, some v)
    | _ :: rest =>
      let r := readAttempts n rest
      (r.1 + 1, r.2)
    | [] => (n + 1, none)

/-- Embed `DesecApiService.getCurrentARecordIP`: inside the rate-limiter
gate, GET the rrset under `pRetry`; on success take the first record (or
`null` when there are none), and return `null` instead when the stored
value fails IPv4 validation. -/
def getCurrentARecordIP (maxRetries : Nat) (fetches : List (Option (Option String))) :
    ReadResult :=
  let r := readAttempts (maxRetries + 1) fetches
  let value :=
    match r.2 with
    | none => none
    | some none => some none
    | some (some s) => if isValidIPv4 s then some (some s) else some none
  ⟨value, r.1, DnsEvent.admitted :: (List.range r.1).map DnsEvent.getAttempt ++ [DnsEvent.released]⟩

example : (getCurrentARecordIP 3 [some (some "5.6.7.8")]).value = some (some "5.6.7.8") := by
  decide
example : (getCurrentARecordIP 3 [some (some "not-an-ip")]).value = some none := by decide
example : (getCurrentARecordIP 3 [none, none, none, none]).value = none := by decide
example : (getCurrentARecordIP 0 []).value = none := by decide

/-! ### The p-limit gate (`pLimit(config.requestsPerMinute)`)

`DesecApiService` creates one shared `p-limit` instance and submits each
read/write job to it.  p-limit keeps a count of running jobs and a FIFO
queue: a submitted job starts immediately when fewer than `limit` jobs are
running, otherwise it is enqueued; when a running job finishes, the head of
the queue (if any) is started.  Events carry a timestamp so that timing
claims about the gate can be stated; p-limit itself never consults time. -/

/-- External events seen by the gate: submission of a job and completion of
a running job, each at a time. -/
inductive PLimEvent where
  | submit (id : Nat) (t : Nat)
  | complete (id : Nat) (t : Nat)
deriving DecidableEq, Repr

/-- State of the p-limit gate: jobs currently running, the FIFO queue of
jobs waiting for admission, and the log of admissions with their times. -/
structure PLimState where
  active : List Nat
  pending : List Nat
  admittedAt : List (Nat × Nat)
deriving DecidableEq, Repr

/-- Initial gate state. -/
def pLimitInit : PLimState := ⟨[], [], []⟩

/-- Submit a job to the gate: run it at once when a slot is free, otherwise
enqueue it.  A submission is never rejected. -/
def pLimitSubmit (limit : Nat) (st : PLimState) (id t : Nat) : PLimState :=
  if st.active.length < limit then
    ⟨st.active ++ [id], st.pending, st.admittedAt ++ [(id, t)]⟩
  else
    ⟨st.active, st.pending ++ [id], st.admittedAt⟩

/-- Completion of a running job: free its slot and start the next queued
job, if any. -/
def pLimitComplete (st : PLimState) (id t : Nat) : PLimState :=
  if id ∈ st.active then
    match st.pending with
    | [] => ⟨st.active.erase id, [], st.admittedAt⟩
    | p :: ps => ⟨st.active.erase id ++ [p], ps, st.admittedAt ++ [(p, t)]⟩
  else st

/-- One gate transition. -/
def pLimitStep (limit : Nat) (st : PLimState) : PLimEvent → PLimState
  | PLimEvent.submit id t => pLimitSubmit limit st id t
  | PLimEvent.complete id t => pLimitComplete st id t

/-- Run the gate over a list of events. -/
def pLimitRun (limit : Nat) (st : PLimState) : List PLimEvent → PLimState
  | [] => st
  | e :: es => pLimitRun limit (pLimitStep limit st e) es

/-- Number of admissions the gate has granted strictly before time `hi`. -/
def admissionsBefore (st : PLimState) (hi : Nat) : Nat :=
  (st.admittedAt.filter (fun p => decide (p.2 < hi))).length

/-- Whether a DNS-operation trace event is an admission by the gate. -/
def isAdmittedEvent : DnsEvent → Bool
  | DnsEvent.admitted => true
  | _ => false

/-- Number of `admitted` events in a DNS-operation trace. -/
def countAdmitted (evs : List DnsEvent) : Nat :=
  (evs.filter isAdmittedEvent).length

example :
    admissionsBefore
      (pLimitRun 1 pLimitInit
        [PLimEvent.submit 0 0, PLimEvent.complete 0 10, PLimEvent.submit 1 20]) 60 = 2 := by
  decide

/-! ### Reconciliation loop (`monitorAndUpdateIP`) -/

/-- In-memory loop state: `lastIp` (`let lastIp: string | null`) and the
consecutive-error counter. -/
structure LoopState where
  lastIp : Option String
  consecutiveErrors : Nat
deriving DecidableEq, Repr

/-- Environment of one polling tick: the provider attempt oracles consumed
by `getPublicIP` and the PUT oracle consumed by `updateDesecARecord` if it
is called. -/
structure TickEnv where
  providers : List (List AttemptResult)
  puts : List Bool
deriving DecidableEq, Repr

/-- Result of one tick: the next loop state, or `none` when the tick calls
`process.exit(1)`; and the list of IPs passed to the record update. -/
structure TickResult where
  next : Option LoopState
  writeCalls : List String
deriving DecidableEq, Repr

/-- Failure budget, `MAX_CONSECUTIVE_ERRORS = 5` in `monitorAndUpdateIP`. -/
def MAX_CONSECUTIVE_ERRORS : Nat := 5

/-- The catch branch of a tick: increment the counter; when it has reached
`MAX_CONSECUTIVE_ERRORS` call `process.exit(1)` (modelled as `none`),
otherwise continue with `lastIp` untouched. -/
def failStep (st : LoopState) (writes : List String) : TickResult :=
  let c := st.consecutiveErrors + 1
  if MAX_CONSECUTIVE_ERRORS ≤ c then ⟨none, writes⟩
  else ⟨some ⟨st.lastIp, c⟩, writes⟩

/-- One iteration of the `while (true)` body of `monitorAndUpdateIP`:
resolve the public IP; on a thrown resolution take the catch branch; if the
resolved IP differs from `lastIp` (JavaScript `ip !== lastIp`, which is
true whenever `lastIp` is `null`) call `updateDesecARecord(ip)` and on its
success set `lastIp = ip`; an unchanged IP is a logged no-op; every
successful tick ends with `consecutiveErrors = 0`; a thrown update takes
the catch branch. -/
def monitorTick (maxRetries : Nat) (st : LoopState) (env : TickEnv) : TickResult :=
  match getPublicIP maxRetries env.providers with
  | none => failStep st []
  | some ip =>
    if st.lastIp = some ip then ⟨some ⟨st.lastIp, 0⟩, []⟩
    else if writeOk (updateARecord maxRetries ip env.puts) then ⟨some ⟨some ip, 0⟩, [ip]⟩
    else failStep st [ip]

/-- Whether a tick throws (from IP resolution or from the record update),
i.e. reaches the catch branch. -/
def tickThrows (maxRetries : Nat) (st : LoopState) (env : TickEnv) : Bool :=
  match getPublicIP maxRetries env.providers with
  | none => true
  | some ip =>
    if st.lastIp = some ip then false
    else !writeOk (updateARecord maxRetries ip env.puts)

/-- Run a sequence of ticks; `none` propagates a `process.exit(1)`. -/
def runTicks (maxRetries : Nat) (st : LoopState) : List TickEnv → Option LoopState
  | [] => some st
  | e :: rest =>
    match (monitorTick maxRetries st e).next with
    | none => none
    | some st' => runTicks maxRetries st' rest

/-- The seeding phase of `monitorAndUpdateIP`: `lastIp` starts as `null`;
`getCurrentARecordIP()` is tried once; on success its value becomes
`lastIp`; on a throw the error is logged and the loop continues with
`lastIp = null`.  Both branches leave `consecutiveErrors = 0`. -/
def seedState (maxRetries : Nat) (fetches : List (Option (Option String))) : LoopState :=
  match (getCurrentARecordIP maxRetries fetches).value with
  | none => ⟨none, 0⟩
  | some r => ⟨r, 0⟩

/-- Whole run of `monitorAndUpdateIP`: seed, then poll. -/
def monitorRun (maxRetries : Nat) (fetches : List (Option (Option String)))
    (envs : List TickEnv) : Option LoopState :=
  runTicks maxRetries (seedState maxRetries fetches) envs

/-- Invariant of the spec: `lastKnownIP`, when present, is a validated IPv4
literal. -/
def stateValid (st : LoopState) : Prop :=
  ∀ s, st.lastIp = some s → isValidIPv4 s = true

/-- Tick environment in which every IP provider is exhausted, so resolution
throws. -/
def failEnv : TickEnv := ⟨[], []⟩

/-- Tick environment in which the first provider returns `9.9.9.9` and the
first PUT succeeds. -/
def okEnv : TickEnv := ⟨[[AttemptResult.ok "9.9.9.9"]], [true]⟩

example : (monitorTick 3 ⟨some "5.6.7.8", 0⟩ okEnv).writeCalls = ["9.9.9.9"] := by decide
example : (monitorTick 3 ⟨some "9.9.9.9", 0⟩ okEnv).writeCalls = [] := by decide
example : runTicks 3 ⟨none, 0⟩ [failEnv, failEnv, failEnv, failEnv] = some ⟨none, 4⟩ := by decide
example : runTicks 3 ⟨none, 0⟩ [failEnv, failEnv, failEnv, failEnv, failEnv] = none := by decide
example : seedState 3 [none, none, none, none] = ⟨none, 0⟩ := by decide

/-! ### Helper lemmas -/

/-- Every value `getPublicIP` returns has passed IPv4 validation. -/
theorem getPublicIP_isValid (m : Nat) :
    ∀ (ps : List (List AttemptResult)) (s : String),
      getPublicIP m ps = some s → isValidIPv4 s = true := by
  intro ps
  induction ps with
  | nil => intro s h; simp [getPublicIP] at h
  | cons a rest ih =>
    intro s h
    rw [getPublicIP] at h
    split at h
    · exact ih s h
    · split at h
      · injection h with h2
        subst h2
        assumption
      · exact ih s h

/-- Every present IP that `getCurrentARecordIP` returns has passed IPv4
validation. -/
theorem getCurrentARecordIP_isValid (m : Nat) (fetches : List (Option (Option String)))
    (s : String) :
    (getCurrentARecordIP m fetches).value = some (some s) → isValidIPv4 s = true := by
  intro h
  simp only [getCurrentARecordIP] at h
  split at h
  · cases h
  · cases h
  · split at h
    · injection h with h2
      injection h2 with h3
      subst h3
      assumption
    · cases h

/-- Case analysis of one tick of the reconciliation loop: resolution
throws; no-op (resolved IP equals `lastIp`); update succeeds; or update
throws. -/
theorem monitorTick_spec (m : Nat) (st : LoopState) (env : TickEnv) :
    (getPublicIP m env.providers = none ∧ monitorTick m st env = failStep st [] ∧
      tickThrows m st env = true) ∨
    (∃ ip, getPublicIP m env.providers = some ip ∧
      ((st.lastIp = some ip ∧ monitorTick m st env = ⟨some ⟨st.lastIp, 0⟩, []⟩ ∧
          tickThrows m st env = false) ∨
       (st.lastIp ≠ some ip ∧ writeOk (updateARecord m ip env.puts) = true ∧
          monitorTick m st env = ⟨some ⟨some ip, 0⟩, [ip]⟩ ∧ tickThrows m st env = false) ∨
       (st.lastIp ≠ some ip ∧ writeOk (updateARecord m ip env.puts) = false ∧
          monitorTick m st env = failStep st [ip] ∧ tickThrows m st env = true))) := by
  cases hres : getPublicIP m env.providers with
  | none =>
    left
    exact ⟨rfl, by simp only [monitorTick, hres], by simp only [tickThrows, hres]⟩
  | some ip =>
    right
    refine ⟨ip, rfl, ?_⟩
    by_cases he : st.lastIp = some ip
    · left
      exact ⟨he, by simp [monitorTick, hres, he], by simp [tickThrows, hres, he]⟩
    · cases hw : writeOk (updateARecord m ip env.puts) with
      | true =>
        right; left
        exact ⟨he, rfl, by simp [monitorTick, hres, he, hw], by simp [tickThrows, hres, he, hw]⟩
      | false =>
        right; right
        exact ⟨he, rfl, by simp [monitorTick, hres, he, hw], by simp [tickThrows, hres, he, hw]⟩

/-- The `next` component of the catch branch does not depend on the
recorded write calls. -/
theorem failStep_next_congr (st : LoopState) (w w' : List String) :
    (failStep st w).next = (failStep st w').next := by
  simp only [failStep]
  split
  · rfl
  · rfl

/-! ### Claim theorems -/

/-- C1: on every polling tick whose IP resolution succeeds, a resolved IP
equal to `lastKnownIP` issues no record update on that tick (a logged
no-op with the counter reset); a differing resolved IP issues exactly one
`writeRecord` call with that IP, and on its success `lastKnownIP` becomes
the resolved IP and `consecutiveFailureCount` resets to 0. -/
theorem C1_noop_idempotence_and_update_on_change :
    ∀ (m : Nat) (st : LoopState) (env : TickEnv) (ip : String),
      getPublicIP m env.providers = some ip →
      ((st.lastIp = some ip →
          (monitorTick m st env).writeCalls = [] ∧
          (monitorTick m st env).next = some ⟨st.lastIp, 0⟩) ∧
       (st.lastIp ≠ some ip →
          (monitorTick m st env).writeCalls = [ip] ∧
          (writeOk (updateARecord m ip env.puts) = true →
            (monitorTick m st env).next = some ⟨some ip, 0⟩))) := by
  intro m st env ip hres
  rcases monitorTick_spec m st env with ⟨hn, _, _⟩ | ⟨ip', hres', hcase⟩
  · rw [hres] at hn; cases hn
  · rw [hres] at hres'
    injection hres' with hip
    subst hip
    rcases hcase with ⟨he, ht, _⟩ | ⟨he, hw, ht, _⟩ | ⟨he, hw, ht, _⟩
    · constructor
      · intro _
        rw [ht]
        exact ⟨rfl, rfl⟩
      · intro hne
        exact absurd he hne
    · constructor
      · intro heq
        exact absurd heq he
      · intro _
        rw [ht]
        exact ⟨rfl, fun _ => rfl⟩
    · constructor
      · intro heq
        exact absurd heq he
      · intro _
        rw [ht]
        constructor
        · simp only [failStep]
          split
          · rfl
          · rfl
        · intro hw2
          rw [hw] at hw2
          cases hw2

/-- Witness for C1, at the spec's own examples: with `lastKnownIP`
`"5.6.7.8"`, a tick resolving `"5.6.7.8"` performs no write and keeps the
state, and a tick resolving `"9.9.9.9"` (with the PUT succeeding) performs
exactly the write `["9.9.9.9"]` and moves `lastKnownIP` to `"9.9.9.9"`
with the counter reset. -/
theorem C1_witness :
    ((monitorTick 3 ⟨some "5.6.7.8", 2⟩ ⟨[[AttemptResult.ok "5.6.7.8"]], []⟩).writeCalls = [] ∧
      (monitorTick 3 ⟨some "5.6.7.8", 2⟩ ⟨[[AttemptResult.ok "5.6.7.8"]], []⟩).next =
        some ⟨some "5.6.7.8", 0⟩) ∧
    ((monitorTick 3 ⟨some "5.6.7.8", 2⟩ okEnv).writeCalls = ["9.9.9.9"] ∧
      (monitorTick 3 ⟨some "5.6.7.8", 2⟩ okEnv).next = some ⟨some "9.9.9.9", 0⟩) := by
  constructor
  · exact (C1_noop_idempotence_and_update_on_change 3 ⟨some "5.6.7.8", 2⟩
      ⟨[[AttemptResult.ok "5.6.7.8"]], []⟩ "5.6.7.8" (by decide)).1 (by decide)
  · have h := (C1_noop_idempotence_and_update_on_change 3 ⟨some "5.6.7.8", 2⟩
      okEnv "9.9.9.9" (by decide)).2 (by decide)
    exact ⟨h.1, h.2 (by decide)⟩

/-- C10 (implicit): a failing tick — IP resolution throws, or the record
update throws — leaves `lastKnownIP` unchanged whenever the loop survives
the tick: `lastIp` is assigned only immediately after a successful
`updateDesecARecord`, so the next tick retries against the same baseline. -/
theorem C10_failed_tick_preserves_lastIp :
    ∀ (m : Nat) (st : LoopState) (env : TickEnv) (st' : LoopState),
      tickThrows m st env = true →
      (monitorTick m st env).next = some st' →
      st'.lastIp = st.lastIp := by
  intro m st env st' hth hnext
  have hfail : ∀ w, (failStep st w).next = some st' → st'.lastIp = st.lastIp := by
    intro w hw
    simp only [failStep] at hw
    split at hw
    · cases hw
    · injection hw with h2
      subst h2
      rfl
  rcases monitorTick_spec m st env with ⟨_, ht, _⟩ | ⟨ip, _, hcase⟩
  · rw [ht] at hnext
    exact hfail [] hnext
  · rcases hcase with ⟨_, _, hf⟩ | ⟨_, _, _, hf⟩ | ⟨_, _, ht, _⟩
    · rw [hth] at hf; cases hf
    · rw [hth] at hf; cases hf
    · rw [ht] at hnext
      exact hfail [ip] hnext

/-- Witness for C10: a tick with every provider exhausted keeps
`lastKnownIP = "5.6.7.8"`. -/
theorem C10_witness :
    (⟨some "5.6.7.8", 1⟩ : LoopState).lastIp = (⟨some "5.6.7.8", 0⟩ : LoopState).lastIp := by
  exact C10_failed_tick_preserves_lastIp 3 ⟨some "5.6.7.8", 0⟩ failEnv ⟨some "5.6.7.8", 1⟩
    (by decide) (by decide)

/-- Running the loop over concatenated tick sequences composes, with
`process.exit(1)` cutting the run short. -/
theorem runTicks_append (m : Nat) (l1 l2 : List TickEnv) :
    ∀ st, runTicks m st (l1 ++ l2) =
      match runTicks m st l1 with
      | none => none
      | some st' => runTicks m st' l2 := by
  induction l1 with
  | nil => intro st; simp [runTicks]
  | cons e es ih =>
    intro st
    rw [List.cons_append, runTicks, runTicks]
    cases hn : (monitorTick m st e).next with
    | none => simp only [hn]
    | some st' =>
      simp only [hn]
      exact ih st'

/-- C2: a tick that throws (from resolution or from the update) increments
`consecutiveFailureCount`; when the incremented count reaches the budget of
5 the tick calls `process.exit(1)`; a fully successful tick resets the
count to 0.  Concretely: from a zero counter, four failing ticks leave the
loop alive at count 4, five failing ticks exit on the fifth, and four
failing ticks followed by a successful one never exit and end at count 0. -/
theorem C2_failure_budget :
    ∀ (m : Nat) (st : LoopState) (env : TickEnv),
      (tickThrows m st env = true → st.consecutiveErrors + 1 < MAX_CONSECUTIVE_ERRORS →
        (monitorTick m st env).next = some ⟨st.lastIp, st.consecutiveErrors + 1⟩) ∧
      (tickThrows m st env = true → MAX_CONSECUTIVE_ERRORS ≤ st.consecutiveErrors + 1 →
        (monitorTick m st env).next = none) ∧
      (tickThrows m st env = false → ∀ st', (monitorTick m st env).next = some st' →
        st'.consecutiveErrors = 0) ∧
      (∀ l, runTicks m ⟨l, 0⟩ (List.replicate 4 failEnv) = some ⟨l, 4⟩) ∧
      (∀ l, runTicks m ⟨l, 0⟩ (List.replicate 5 failEnv) = none) ∧
      (∀ l, ∃ st', runTicks m ⟨l, 0⟩ (List.replicate 4 failEnv ++ [okEnv]) = some st' ∧
        st'.consecutiveErrors = 0) := by
  intro m st env
  have hv9 : isValidIPv4 "9.9.9.9" = true := by decide
  have hthrow : tickThrows m st env = true → ∃ w, monitorTick m st env = failStep st w := by
    intro hth
    rcases monitorTick_spec m st env with ⟨_, ht, _⟩ | ⟨ip, _, hcase⟩
    · exact ⟨[], ht⟩
    · rcases hcase with ⟨_, _, hf⟩ | ⟨_, _, _, hf⟩ | ⟨_, _, ht, _⟩
      · rw [hth] at hf; cases hf
      · rw [hth] at hf; cases hf
      · exact ⟨[ip], ht⟩
  have hfail4 : ∀ l, runTicks m ⟨l, 0⟩ (List.replicate 4 failEnv) = some ⟨l, 4⟩ := by
    intro l
    simp [List.replicate, runTicks, monitorTick, failEnv, getPublicIP, failStep,
      MAX_CONSECUTIVE_ERRORS]
  refine ⟨?_, ?_, ?_, hfail4, ?_, ?_⟩
  · intro hth hlt
    obtain ⟨w, hw⟩ := hthrow hth
    rw [hw]
    simp only [failStep]
    rw [if_neg (by omega)]
  · intro hth hge
    obtain ⟨w, hw⟩ := hthrow hth
    rw [hw]
    simp only [failStep]
    rw [if_pos hge]
  · intro hth st' hnext
    rcases monitorTick_spec m st env with ⟨_, _, hf⟩ | ⟨ip, _, hcase⟩
    · rw [hth] at hf; cases hf
    · rcases hcase with ⟨_, ht, _⟩ | ⟨_, _, ht, _⟩ | ⟨_, _, _, hf⟩
      · rw [ht] at hnext
        injection hnext with h2
        subst h2
        rfl
      · rw [ht] at hnext
        injection hnext with h2
        subst h2
        rfl
      · rw [hth] at hf; cases hf
  · intro l
    simp [List.replicate, runTicks, monitorTick, failEnv, getPublicIP, failStep,
      MAX_CONSECUTIVE_ERRORS]
  · intro l
    by_cases he : l = some "9.9.9.9"
    · refine ⟨⟨l, 0⟩, ?_, rfl⟩
      rw [runTicks_append, hfail4 l]
      subst he
      simp [runTicks, monitorTick, okEnv, getPublicIP, providerResult, pRetryFirstOk, hv9]
    · refine ⟨⟨some "9.9.9.9", 0⟩, ?_, rfl⟩
      rw [runTicks_append, hfail4 l]
      simp [runTicks, monitorTick, okEnv, getPublicIP, providerResult, pRetryFirstOk, hv9, he,
        updateARecord, retryCalls, writeOk]

/-- Witness for C2: a failing tick at count 0 continues with count 1, a
failing tick at count 4 exits, and a successful tick resets the count. -/
theorem C2_witness :
    (monitorTick 3 ⟨none, 0⟩ failEnv).next = some ⟨none, 1⟩ ∧
    (monitorTick 3 ⟨none, 4⟩ failEnv).next = none ∧
    (⟨some "9.9.9.9", 0⟩ : LoopState).consecutiveErrors = 0 := by
  refine ⟨?_, ?_, ?_⟩
  · exact (C2_failure_budget 3 ⟨none, 0⟩ failEnv).1 (by decide) (by decide)
  · exact (C2_failure_budget 3 ⟨none, 4⟩ failEnv).2.1 (by decide) (by decide)
  · exact (C2_failure_budget 3 ⟨none, 3⟩ okEnv).2.2.1 (by decide) ⟨some "9.9.9.9", 0⟩ (by decide)

/-- A provider that yields no valid address (exhausted retries, or a
delivered value failing IPv4 validation) is skipped: the resolver result is
that of the remaining providers, at the cost of one tried provider. -/
theorem getPublicIP_skip (m : Nat) (b : List AttemptResult) (rest : List (List AttemptResult))
    (hb : providerYieldsValid m b = false) :
    getPublicIP m (b :: rest) = getPublicIP m rest ∧
    providersTried m (b :: rest) = 1 + providersTried m rest := by
  unfold providerYieldsValid at hb
  cases hp : providerResult m b with
  | none =>
    constructor
    · rw [getPublicIP]; simp only [hp]
    · rw [providersTried]; simp only [hp]
  | some s =>
    simp only [hp] at hb
    constructor
    · rw [getPublicIP]; simp [hp, hb]
    · rw [providersTried]; simp [hp, hb]

/-- The resolver returns the first valid value: with every earlier provider
yielding no valid address and provider `a` delivering the valid `s`, the
result is `s` and exactly the providers up to and including `a` are
queried, none after it. -/
theorem getPublicIP_first_valid (m : Nat) (a : List AttemptResult) (s : String)
    (post : List (List AttemptResult)) (ha : providerResult m a = some s)
    (hv : isValidIPv4 s = true) :
    ∀ pre, (∀ b ∈ pre, providerYieldsValid m b = false) →
      getPublicIP m (pre ++ a :: post) = some s ∧
      providersTried m (pre ++ a :: post) = pre.length + 1 := by
  intro pre
  induction pre with
  | nil =>
    intro _
    constructor
    · rw [List.nil_append, getPublicIP]
      simp [ha, hv]
    · rw [List.nil_append, providersTried]
      simp [ha, hv]
  | cons b pre ih =>
    intro hall
    have hb := hall b (List.mem_cons_self b pre)
    have hrest : ∀ x ∈ pre, providerYieldsValid m x = false := fun x hx =>
      hall x (List.mem_cons_of_mem b hx)
    obtain ⟨ih1, ih2⟩ := ih hrest
    obtain ⟨sk1, sk2⟩ := getPublicIP_skip m b (pre ++ a :: post) hb
    constructor
    · rw [List.cons_append, sk1]
      exact ih1
    · rw [List.cons_append, sk2, ih2]
      simp only [List.length_cons]
      omega

/-- The resolver throws the all-providers error exactly when no provider in
the list yields a valid address. -/
theorem getPublicIP_none_iff (m : Nat) :
    ∀ ps : List (List AttemptResult),
      (getPublicIP m ps = none ↔ ∀ b ∈ ps, providerYieldsValid m b = false) := by
  intro ps
  induction ps with
  | nil => simp [getPublicIP]
  | cons a rest ih =>
    constructor
    · intro h
      have ha : providerYieldsValid m a = false := by
        unfold providerYieldsValid
        cases hp : providerResult m a with
        | none => simp only [hp]
        | some s =>
          simp only [hp]
          rw [getPublicIP] at h
          simp only [hp] at h
          cases hv : isValidIPv4 s with
          | true => rw [if_pos hv] at h; cases h
          | false => rfl
      obtain ⟨sk1, _⟩ := getPublicIP_skip m a rest ha
      rw [sk1] at h
      intro b hb
      rcases List.mem_cons.mp hb with rfl | hb2
      · exact ha
      · exact ih.mp h b hb2
    · intro hall
      have ha := hall a (List.mem_cons_self a rest)
      obtain ⟨sk1, _⟩ := getPublicIP_skip m a rest ha
      rw [sk1]
      exact ih.mpr (fun b hb2 => hall b (List.mem_cons_of_mem a hb2))

/-- When the resolver fails, every provider of the list has been tried. -/
theorem getPublicIP_none_tried (m : Nat) :
    ∀ ps : List (List AttemptResult),
      getPublicIP m ps = none → providersTried m ps = ps.length := by
  intro ps
  induction ps with
  | nil => intro _; rfl
  | cons a rest ih =>
    intro h
    have hall := (getPublicIP_none_iff m (a :: rest)).mp h
    have ha := hall a (List.mem_cons_self a rest)
    obtain ⟨sk1, sk2⟩ := getPublicIP_skip m a rest ha
    rw [sk2, ih (by rw [← sk1]; exact h)]
    simp only [List.length_cons]
    omega

/-- C3: `resolvePublicIP` walks the provider list in its fixed order and
returns the first syntactically valid IPv4 result immediately, querying no
provider after the successful one; it throws the all-providers-exhausted
error if and only if every provider of the ordered list has been tried and
none yielded a valid address. -/
theorem C3_provider_fallback_order :
    ∀ m : Nat,
      (∀ (pre post : List (List AttemptResult)) (a : List AttemptResult) (s : String),
        (∀ b ∈ pre, providerYieldsValid m b = false) →
        providerResult m a = some s → isValidIPv4 s = true →
        getPublicIP m (pre ++ a :: post) = some s ∧
        providersTried m (pre ++ a :: post) = pre.length + 1) ∧
      (∀ ps, (getPublicIP m ps = none ↔ ∀ b ∈ ps, providerYieldsValid m b = false)) ∧
      (∀ ps, getPublicIP m ps = none → providersTried m ps = ps.length) := by
  intro m
  exact ⟨fun pre post a s hall ha hv => getPublicIP_first_valid m a s post ha hv pre hall,
    getPublicIP_none_iff m, getPublicIP_none_tried m⟩

/-- Witness for C3, at the spec's example: providers [A(fails),
B(succeeds with `"1.2.3.4"`), C] give `"1.2.3.4"` with exactly two
providers queried — C is never invoked. -/
theorem C3_witness :
    getPublicIP 0 [[AttemptResult.err], [AttemptResult.ok "1.2.3.4"],
        [AttemptResult.ok "7.7.7.7"]] = some "1.2.3.4" ∧
    providersTried 0 [[AttemptResult.err], [AttemptResult.ok "1.2.3.4"],
        [AttemptResult.ok "7.7.7.7"]] = 2 := by
  have h := (C3_provider_fallback_order 0).1 [[AttemptResult.err]]
    [[AttemptResult.ok "7.7.7.7"]] [AttemptResult.ok "1.2.3.4"] "1.2.3.4"
    (by decide) (by decide) (by decide)
  exact ⟨h.1, h.2⟩

/-- C8: a provider whose fetch succeeds but whose extracted value fails
IPv4 validation is neither returned nor retried: the delivered value ends
the provider's retry loop after that single attempt (no retry budget is
consumed on it), and the resolver logs and moves to the next provider. -/
theorem C8_invalid_response_is_soft_failure :
    ∀ (m : Nat) (s : String) (extra : List AttemptResult)
      (rest : List (List AttemptResult)),
      isValidIPv4 s = false →
      providerResult m (AttemptResult.ok s :: extra) = some s ∧
      attemptsUsed (m + 1) (AttemptResult.ok s :: extra) = 1 ∧
      getPublicIP m ((AttemptResult.ok s :: extra) :: rest) = getPublicIP m rest ∧
      providersTried m ((AttemptResult.ok s :: extra) :: rest) = 1 + providersTried m rest := by
  intro m s extra rest hv
  have hres : providerResult m (AttemptResult.ok s :: extra) = some s := rfl
  have hskip := getPublicIP_skip m (AttemptResult.ok s :: extra) rest (by
    unfold providerYieldsValid
    simp only [hres]
    exact hv)
  exact ⟨hres, rfl, hskip.1, hskip.2⟩

/-- Witness for C8, at the spec's example: a provider answering
`"not-an-ip"` is rejected after one attempt and the resolver proceeds to
the next provider, which yields `"1.2.3.4"`. -/
theorem C8_witness :
    providerResult 3 [AttemptResult.ok "not-an-ip"] = some "not-an-ip" ∧
    attemptsUsed 4 [AttemptResult.ok "not-an-ip"] = 1 ∧
    getPublicIP 3 [[AttemptResult.ok "not-an-ip"], [AttemptResult.ok "1.2.3.4"]] =
      getPublicIP 3 [[AttemptResult.ok "1.2.3.4"]] ∧
    providersTried 3 [[AttemptResult.ok "not-an-ip"], [AttemptResult.ok "1.2.3.4"]] =
      1 + providersTried 3 [[AttemptResult.ok "1.2.3.4"]] :=
  C8_invalid_response_is_soft_failure 3 "not-an-ip" [] [[AttemptResult.ok "1.2.3.4"]]
    (by decide)

/-- C4: `writeRecord` called with a string failing IPv4 validation throws
the `ApiError('Invalid IP format', 400)` validation error with zero HTTP
calls issued and without entering the retry wrapper — the rejection is not
retried. -/
theorem C4_write_rejects_invalid_ip :
    ∀ (m : Nat) (ip : String) (puts : List Bool),
      isValidIPv4 ip = false →
      updateARecord m ip puts =
        ⟨WriteOutcome.validationError, 0, false, [DnsEvent.admitted, DnsEvent.released]⟩ := by
  intro m ip puts h
  unfold updateARecord
  rw [if_pos h]

/-- Witness for C4, at the spec's example: `writeRecord("999.1.1.1")`
fails validation with zero HTTP calls, even though the PUT oracle would
have succeeded. -/
theorem C4_witness :
    updateARecord 3 "999.1.1.1" [true, true] =
      ⟨WriteOutcome.validationError, 0, false, [DnsEvent.admitted, DnsEvent.released]⟩ :=
  C4_write_rejects_invalid_ip 3 "999.1.1.1" [true, true] (by decide)

/-- C5: a failed initial `readRecord` is not fatal: the loop proceeds into
polling with `lastKnownIP` absent and the counter at 0, and the polling
behaviour is exactly that of the loop started from the absent baseline; a
seed failure alone (zero subsequent ticks) never exits the process. -/
theorem C5_seed_failure_tolerated :
    ∀ (m : Nat) (fetches : List (Option (Option String))),
      (getCurrentARecordIP m fetches).value = none →
      seedState m fetches = ⟨none, 0⟩ ∧
      monitorRun m fetches [] = some ⟨none, 0⟩ ∧
      (∀ envs, monitorRun m fetches envs = runTicks m ⟨none, 0⟩ envs) := by
  intro m fetches h
  have hseed : seedState m fetches = ⟨none, 0⟩ := by
    unfold seedState
    simp only [h]
  refine ⟨hseed, ?_, ?_⟩
  · unfold monitorRun
    rw [hseed]
    rfl
  · intro envs
    unfold monitorRun
    rw [hseed]

/-- Witness for C5: with every read attempt throwing, the seed yields the
absent baseline and the loop is still alive. -/
theorem C5_witness :
    seedState 0 [none] = ⟨none, 0⟩ ∧ monitorRun 0 [none] [] = some ⟨none, 0⟩ := by
  have h := C5_seed_failure_tolerated 0 [none] (by decide)
  exact ⟨h.1, h.2.1⟩

/-- C6: the invariant that `lastKnownIP`, when present, is a validated
IPv4 literal, holds of the seeded state and is preserved by every tick:
values assigned from `readRecord`, from the resolver and after a
successful `writeRecord` have all passed IPv4 validation, so every state
the whole run reaches satisfies it. -/
theorem C6_lastKnownIP_always_validated :
    ∀ (m : Nat) (fetches : List (Option (Option String))),
      stateValid (seedState m fetches) ∧
      (∀ (st : LoopState) (env : TickEnv) (st' : LoopState),
        stateValid st → (monitorTick m st env).next = some st' → stateValid st') ∧
      (∀ (envs : List TickEnv) (st' : LoopState),
        monitorRun m fetches envs = some st' → stateValid st') := by
  intro m fetches
  have hseed : stateValid (seedState m fetches) := by
    unfold seedState
    cases hv : (getCurrentARecordIP m fetches).value with
    | none =>
      simp only [hv]
      intro s hs
      cases hs
    | some r =>
      simp only [hv]
      cases r with
      | none =>
        intro s hs
        cases hs
      | some s0 =>
        intro s hs
        injection hs with h2
        subst h2
        exact getCurrentARecordIP_isValid m fetches _ hv
  have hpres : ∀ (st : LoopState) (env : TickEnv) (st' : LoopState),
      stateValid st → (monitorTick m st env).next = some st' → stateValid st' := by
    intro st env st' hval hnext
    rcases monitorTick_spec m st env with ⟨_, ht, _⟩ | ⟨ip, hres, hcase⟩
    · rw [ht] at hnext
      simp only [failStep] at hnext
      split at hnext
      · cases hnext
      · injection hnext with h2
        subst h2
        exact hval
    · rcases hcase with ⟨he, ht, _⟩ | ⟨he, hw, ht, _⟩ | ⟨he, hw, ht, _⟩
      · rw [ht] at hnext
        injection hnext with h2
        subst h2
        exact hval
      · rw [ht] at hnext
        injection hnext with h2
        subst h2
        intro s hs
        injection hs with h3
        subst h3
        exact getPublicIP_isValid m env.providers _ hres
      · rw [ht] at hnext
        simp only [failStep] at hnext
        split at hnext
        · cases hnext
        · injection hnext with h2
          subst h2
          exact hval
  have hrun : ∀ (envs : List TickEnv) (st : LoopState), stateValid st →
      ∀ st', runTicks m st envs = some st' → stateValid st' := by
    intro envs
    induction envs with
    | nil =>
      intro st hval st' h
      rw [runTicks] at h
      injection h with h2
      subst h2
      exact hval
    | cons e es ih =>
      intro st hval st' h
      rw [runTicks] at h
      cases hn : (monitorTick m st e).next with
      | none =>
        rw [hn] at h
        cases h
      | some st2 =>
        rw [hn] at h
        exact ih st2 (hpres st e st2 hval hn) st' h
  exact ⟨hseed, hpres, fun envs st' h => hrun envs (seedState m fetches) hseed st' h⟩

/-- Witness for C6: running seed plus one updating tick reaches the state
with `lastKnownIP = "9.9.9.9"`, which the theorem certifies valid. -/
theorem C6_witness : stateValid (⟨some "9.9.9.9", 0⟩ : LoopState) :=
  (C6_lastKnownIP_always_validated 3 [some (some "5.6.7.8")]).2.2 [okEnv]
    ⟨some "9.9.9.9", 0⟩ (by decide)

/-- One gate transition keeps the number of running jobs within the
configured ceiling. -/
theorem pLimitStep_active_le (limit : Nat) (st : PLimState) (e : PLimEvent)
    (h : st.active.length ≤ limit) : (pLimitStep limit st e).active.length ≤ limit := by
  cases e with
  | submit id t =>
    simp only [pLimitStep, pLimitSubmit]
    split
    · rename_i hlt
      simp only [List.length_append, List.length_cons, List.length_nil]
      omega
    · exact h
  | complete id t =>
    simp only [pLimitStep, pLimitComplete]
    split
    · rename_i hm
      have hpos : 0 < st.active.length := List.length_pos.mpr (List.ne_nil_of_mem hm)
      have herase : (st.active.erase id).length = st.active.length - 1 :=
        List.length_erase_of_mem hm
      cases hp : st.pending with
      | nil =>
        simp only [hp]
        rw [herase]
        omega
      | cons p ps =>
        simp only [hp, List.length_append, List.length_cons, List.length_nil]
        rw [herase]
        omega
    · exact h

/-- Helper lemmas for the witnesses: `countAdmitted` distributes over
append. -/
theorem countAdmitted_append (l1 l2 : List DnsEvent) :
    countAdmitted (l1 ++ l2) = countAdmitted l1 + countAdmitted l2 := by
  unfold countAdmitted
  rw [List.filter_append, List.length_append]

/-- Admission events count one at the head of a trace. -/
theorem countAdmitted_cons_admitted (l : List DnsEvent) :
    countAdmitted (DnsEvent.admitted :: l) = 1 + countAdmitted l := by
  unfold countAdmitted
  rw [List.filter_cons]
  simp [isAdmittedEvent]
  omega

/-- HTTP PUT attempts are not admissions. -/
theorem countAdmitted_map_putAttempt (l : List Nat) :
    countAdmitted (l.map DnsEvent.putAttempt) = 0 := by
  induction l with
  | nil => rfl
  | cons x xs ih =>
    unfold countAdmitted at ih ⊢
    rw [List.map_cons, List.filter_cons]
    simp [isAdmittedEvent, ih]

/-- HTTP GET attempts are not admissions. -/
theorem countAdmitted_map_getAttempt (l : List Nat) :
    countAdmitted (l.map DnsEvent.getAttempt) = 0 := by
  induction l with
  | nil => rfl
  | cons x xs ih =>
    unfold countAdmitted at ih ⊢
    rw [List.map_cons, List.filter_cons]
    simp [isAdmittedEvent, ih]

/-- Slot release is not an admission. -/
theorem countAdmitted_released : countAdmitted [DnsEvent.released] = 0 := rfl

/-- A write operation is admitted by the gate exactly once, before any of
its HTTP attempts: one admission event, and it heads the trace. -/
theorem updateARecord_trace (m : Nat) (ip : String) (puts : List Bool) :
    (updateARecord m ip puts).events.head? = some DnsEvent.admitted ∧
    countAdmitted (updateARecord m ip puts).events = 1 := by
  unfold updateARecord
  split
  · exact ⟨rfl, rfl⟩
  · refine ⟨rfl, ?_⟩
    simp only [countAdmitted_cons_admitted, countAdmitted_append, countAdmitted_map_putAttempt,
      countAdmitted_released]

/-- A read operation is admitted by the gate exactly once, before any of
its HTTP attempts. -/
theorem getCurrentARecordIP_trace (m : Nat) (fetches : List (Option (Option String))) :
    (getCurrentARecordIP m fetches).events.head? = some DnsEvent.admitted ∧
    countAdmitted (getCurrentARecordIP m fetches).events = 1 := by
  refine ⟨rfl, ?_⟩
  unfold getCurrentARecordIP
  simp only [countAdmitted_cons_admitted, countAdmitted_append, countAdmitted_map_getAttempt,
    countAdmitted_released]

/-- C7 counterexample: the gate of the code is `pLimit(requestsPerMinute)`,
a concurrency limiter that never consults time.  With a ceiling of 1 and a
60-unit window starting at time 0, the run submit(job 0, t=0),
complete(job 0, t=10), submit(job 1, t=20) admits two operations inside
the window — the claim that admitted DNS operations are bounded by the
`requestsPerWindow` ceiling per window is false of the code. -/
theorem C7_counterexample :
    1 < admissionsBefore
      (pLimitRun 1 pLimitInit
        [PLimEvent.submit 0 0, PLimEvent.complete 0 10, PLimEvent.submit 1 20]) 60 := by
  decide

/-- C7 as amended: both DNS-provider operations run as one job submitted
to the shared gate, admitted exactly once with the retry wrapper and all
HTTP attempts inside that single admission; the gate bounds the number of
concurrently in-flight DNS operations to the ceiling; submissions beyond
the ceiling are queued, never rejected, and a queued operation is admitted
when a running one completes. -/
theorem C7_amended_gate_bounds_concurrency :
    (∀ (limit : Nat) (evs : List PLimEvent) (st : PLimState),
      st.active.length ≤ limit → (pLimitRun limit st evs).active.length ≤ limit) ∧
    (∀ (limit : Nat) (st : PLimState) (id t : Nat),
      (id ∈ (pLimitSubmit limit st id t).active ∧
        (id, t) ∈ (pLimitSubmit limit st id t).admittedAt) ∨
      id ∈ (pLimitSubmit limit st id t).pending) ∧
    (∀ (st : PLimState) (id t p : Nat) (ps : List Nat),
      id ∈ st.active → st.pending = p :: ps →
      p ∈ (pLimitComplete st id t).active ∧
      (p, t) ∈ (pLimitComplete st id t).admittedAt ∧
      (pLimitComplete st id t).pending = ps) ∧
    (∀ (m : Nat) (ip : String) (puts : List Bool),
      (updateARecord m ip puts).events.head? = some DnsEvent.admitted ∧
      countAdmitted (updateARecord m ip puts).events = 1) ∧
    (∀ (m : Nat) (fetches : List (Option (Option String))),
      (getCurrentARecordIP m fetches).events.head? = some DnsEvent.admitted ∧
      countAdmitted (getCurrentARecordIP m fetches).events = 1) := by
  refine ⟨?_, ?_, ?_, updateARecord_trace, getCurrentARecordIP_trace⟩
  · intro limit evs
    induction evs with
    | nil => intro st h; exact h
    | cons e es ih =>
      intro st h
      rw [pLimitRun]
      exact ih (pLimitStep limit st e) (pLimitStep_active_le limit st e h)
  · intro limit st id t
    unfold pLimitSubmit
    split
    · left
      exact ⟨by simp, by simp⟩
    · right
      simp
  · intro st id t p ps hm hp
    simp only [pLimitComplete, if_pos hm, hp]
    exact ⟨by simp, by simp, by trivial⟩

/-- Witness for C7's amended theorem: three submissions against a ceiling
of 1 leave at most one job running, and completing the running job admits
the queued one. -/
theorem C7_witness :
    (pLimitRun 1 pLimitInit
      [PLimEvent.submit 0 0, PLimEvent.submit 1 1, PLimEvent.submit 2 2]).active.length ≤ 1 ∧
    (8 ∈ (pLimitComplete ⟨[4], [8], [(4, 0)]⟩ 4 5).active ∧
      (8, 5) ∈ (pLimitComplete ⟨[4], [8], [(4, 0)]⟩ 4 5).admittedAt ∧
      (pLimitComplete ⟨[4], [8], [(4, 0)]⟩ 4 5).pending = []) := by
  constructor
  · exact C7_amended_gate_bounds_concurrency.1 1
      [PLimEvent.submit 0 0, PLimEvent.submit 1 1, PLimEvent.submit 2 2] pLimitInit (by decide)
  · exact C7_amended_gate_bounds_concurrency.2.2.1 ⟨[4], [8], [(4, 0)]⟩ 4 5 8 []
      (by decide) (by decide)

/-- Environment with a valid token and domain but a malformed
`INTERVAL_SECONDS` value. -/
def malformedIntervalEnv : ConfigEnv :=
  ⟨some "token123", some "example.com", none, some "abc", none, none, none⟩

/-- C9 counterexample: a malformed numeric configuration value is NOT
fatal.  With `INTERVAL_SECONDS = "abc"` (not a positive integer),
`loadConfig` does not exit — `validatePositiveInteger` logs a warning and
substitutes the default 300 — so the process runs on, contradicting the
claim that every malformed configuration value terminates the process with
a non-zero status at startup. -/
theorem C9_counterexample :
    loadConfig malformedIntervalEnv ≠ none ∧
    loadConfig malformedIntervalEnv =
      some ⟨"token123", "example.com", "@", 300, 3, 30, 3600⟩ :=
  ⟨by decide, by decide⟩

/-- C9 as amended: configuration loading is fatal (non-zero exit before
the loop starts) exactly for a missing/empty token, a missing/empty
domain, or a domain failing FQDN validation; a malformed positive-integer
value (INTERVAL_SECONDS, MAX_RETRIES, REQUESTS_PER_MINUTE, TTL) is never
fatal — it is replaced by its documented default with a warning, and with
valid token and domain `loadConfig` always yields a configuration. -/
theorem C9_amended_config_validation :
    (∀ env : ConfigEnv, envOpt env.desecToken = none → loadConfig env = none) ∧
    (∀ env : ConfigEnv, envOpt env.desecDomain = none → loadConfig env = none) ∧
    (∀ (env : ConfigEnv) (d : String),
      envOpt env.desecDomain = some d → isValidDomain d = false → loadConfig env = none) ∧
    (∀ (v nm : String) (d : Nat),
      (jsParseInt v = none ∨ ∃ n, jsParseInt v = some n ∧ n ≤ 0) →
      validatePositiveInteger v nm d = d) ∧
    (∀ (env : ConfigEnv) (t d : String),
      envOpt env.desecToken = some t → envOpt env.desecDomain = some d →
      isValidDomain d = true → loadConfig env ≠ none) := by
  refine ⟨?_, ?_, ?_, ?_, ?_⟩
  · intro env h
    unfold loadConfig
    simp only [h]
  · intro env h
    unfold loadConfig
    cases ht : envOpt env.desecToken with
    | none => simp only [ht]
    | some tok => simp only [ht, h]
  · intro env d hd hinv
    unfold loadConfig
    cases ht : envOpt env.desecToken with
    | none => simp only [ht]
    | some tok =>
      simp only [ht, hd]
      rw [if_pos hinv]
  · intro v nm d h
    unfold validatePositiveInteger
    rcases h with h | ⟨n, hn, hle⟩
    · simp only [h]
    · simp only [hn]
      rw [if_pos hle]
  · intro env t d ht hd hv
    unfold loadConfig
    simp only [ht, hd, hv]
    simp

/-- Witness for C9's amended theorem: a missing token is fatal, a
malformed INTERVAL_SECONDS falls back to the default 300, and with valid
token and domain the loader does not exit despite the malformed numeric
value. -/
theorem C9_witness :
    loadConfig ⟨none, some "example.com", none, none, none, none, none⟩ = none ∧
    validatePositiveInteger "abc" "INTERVAL_SECONDS" 300 = 300 ∧
    loadConfig malformedIntervalEnv ≠ none := by
  refine ⟨?_, ?_, ?_⟩
  · exact C9_amended_config_validation.1
      ⟨none, some "example.com", none, none, none, none, none⟩ (by decide)
  · exact C9_amended_config_validation.2.2.2.1 "abc" "INTERVAL_SECONDS" 300 (Or.inl (by decide))
  · exact C9_amended_config_validation.2.2.2.2 malformedIntervalEnv "token123" "example.com"
      (by decide) (by decide) (by decide)
